import Mathlib

/-!
Verification of the pairing-and-relay signaling engine (`src/server.js`).

The server keeps all state in module-level globals:
  `waitingUser` (the single waiting slot), `activeUsers` (a `Map` from
  socket id to socket), `recentPairs` (a `Map` from id to the set of
  recently paired ids, with a 60s `setTimeout` removal per direction),
  `reports` (append-only array), `banned` (a `Set`), and `RATE_LIMIT`
  (a `Map` from `id:action` keys to the last invocation timestamp).

We embed that state shallowly: sockets become registry entries in an
insertion-ordered association list (faithful to JS `Map` semantics); the
mutable cross-object reference `socket.partner` becomes the `partner`
field holding the partner's id; `socket.emit(...)` / `io.to(id).emit(...)`
become elements of an output list `(targetId, OutMsg)`; `Date.now()` is
the timestamp carried by each inbound event.  Session ids are `Nat`
(socket.io ids are opaque, unique, and never reused); relayed payloads
are opaque `Nat` values (the server never inspects them).
-/

/-- Action kinds used as the second component of `RATE_LIMIT` keys
(the JS code builds the string key `id:action`). -/
inductive AKind where
  | findPartner
  | report
  | next
deriving DecidableEq, Repr

/-- One socket's server-side state: `socket.partner` (as the partner's id,
`none` for the JS `null`) and `socket.lastSeen`. -/
structure Session where
  partner : Option Nat
  lastSeen : Nat
deriving DecidableEq, Repr

/-- One entry of the `reports` array:
`{ reporterId, reportedId, reason, ts }`.  `reportedId` is an `Option`
because `socket.partner?.id || payload.reportedId` can be `undefined`. -/
structure ReportEntry where
  reporterId : Nat
  reportedId : Option Nat
  reason : String
  ts : Nat
deriving DecidableEq, Repr

/-- The payload of a client `report` event: `{ reportedId?, reason? }`. -/
structure RPayload where
  reportedId : Option Nat
  reason : Option String
deriving DecidableEq, Repr

/-- Messages the server emits to a client (the outbound events of the
transport).  `findPartnerPing` is the `socket.emit("findPartner")` the
`next` handler sends back to its own client. -/
inductive OutMsg where
  | matchedWith (initiator : Bool) (partnerId : Nat)
  | offerM (payload : Nat)
  | answerM (payload : Nat)
  | candidateM (payload : Nat)
  | partnerLeft
  | readyForNext
  | matchTimeout (msg : String)
  | bannedMsg (msg : String)
  | reportAck (msg : String)
  | findPartnerPing
deriving DecidableEq, Repr

/-- The whole global state of `server.js`. `recentPairs` is flattened to
directed edges `(from, to, expiresAt)`: `recordPair` inserts both
directions with expiry `now + 60000`, matching the `setTimeout` that
deletes each direction 60s later. -/
structure ServerState where
  waitingUser : Option Nat
  activeUsers : List (Nat × Session)
  recentPairs : List (Nat × Nat × Nat)
  reports : List ReportEntry
  banned : List Nat
  rateLimit : List ((Nat × AKind) × Nat)
deriving DecidableEq, Repr

/-- Association-list lookup (first occurrence), the JS `Map.get`. -/
def alookup {κ : Type} {α : Type} [DecidableEq κ] : List (κ × α) → κ → Option α
  | [], _ => none
  | (k, v) :: t, k' => if k = k' then some v else alookup t k'

/-- Association-list write, the JS `Map.set`: replace the existing entry
in place or append a fresh one at the end (insertion order preserved). -/
def aset {κ : Type} {α : Type} [DecidableEq κ] : List (κ × α) → κ → α → List (κ × α)
  | [], k, v => [(k, v)]
  | (k0, v0) :: t, k, v => if k0 = k then (k, v) :: t else (k0, v0) :: aset t k v

/-- Association-list pointwise update of an existing entry (the JS
mutation of a field of the object stored in the map); missing keys are
left untouched. -/
def aupdate {κ : Type} {α : Type} [DecidableEq κ] (f : α → α) : List (κ × α) → κ → List (κ × α)
  | [], _ => []
  | (k, v) :: t, k' => if k = k' then (k, f v) :: t else (k, v) :: aupdate f t k'

/-- Association-list removal, the JS `Map.delete`. -/
def adelete {κ : Type} {α : Type} [DecidableEq κ] : List (κ × α) → κ → List (κ × α)
  | [], _ => []
  | (k, v) :: t, k' => if k = k' then adelete t k' else (k, v) :: adelete t k'

/-- The id of `socket.partner` for the socket registered under `sid`
(`none` when the socket is unregistered or unpaired). -/
def partnerOf (st : ServerState) (sid : Nat) : Option Nat :=
  (alookup st.activeUsers sid).bind Session.partner

/-- Overwrite the `partner` field of the socket registered at `sid`
(the JS `socket.partner = ...` / `partner.partner = ...`). -/
def setPartner (st : ServerState) (sid : Nat) (v : Option Nat) : ServerState :=
  { st with activeUsers := aupdate (fun s => { s with partner := v }) st.activeUsers sid }

/-- `markRateLimited(id, action, ms)`: reads the last time stored under
`id:action` (default 0), returns `true` (limited) leaving the map
untouched when `now() - last < ms`, otherwise stores `now()` and returns
`false`.  The comparison is over `Int`, as JS arithmetic is signed. -/
def markRateLimited (st : ServerState) (id : Nat) (action : AKind) (ms t : Nat) :
    Bool × ServerState :=
  let last := (alookup st.rateLimit (id, action)).getD 0
  if (t : Int) - (last : Int) < (ms : Int) then (true, st)
  else (false, { st with rateLimit := aset st.rateLimit (id, action) t })

/-- `wasRecentlyPaired(a, b)`: the directed lookup
`recentPairs.get(a)?.has(b) || false`. -/
def wasRecentlyPaired (st : ServerState) (a b : Nat) : Bool :=
  st.recentPairs.any (fun e => e.1 == a && e.2.1 == b)

/-- `recordPair(a, b)` at time `t`: symmetric insertion, each direction
carrying the expiry `t + 60000` of its scheduled `setTimeout` removal. -/
def recordPair (st : ServerState) (a b t : Nat) : ServerState :=
  { st with recentPairs := st.recentPairs ++ [(a, b, t + 60000), (b, a, t + 60000)] }

/-- `safeDisconnect(socket)`: clear the waiting slot if this socket holds
it; if it has a partner, emit `partnerLeft` to the partner and null the
partner's back-link; null the socket's own link; drop the socket from
`activeUsers` and its outgoing edges from `recentPairs`. -/
def safeDisconnect (st : ServerState) (sid : Nat) : ServerState × List (Nat × OutMsg) :=
  let st1 := if st.waitingUser = some sid then { st with waitingUser := none } else st
  match partnerOf st1 sid with
  | some p =>
    let st3 := setPartner (setPartner st1 p none) sid none
    ({ st3 with
        activeUsers := adelete st3.activeUsers sid,
        recentPairs := st3.recentPairs.filter (fun e => !(e.1 == sid)) },
     [(p, OutMsg.partnerLeft)])
  | none =>
    let st3 := setPartner st1 sid none
    ({ st3 with
        activeUsers := adelete st3.activeUsers sid,
        recentPairs := st3.recentPairs.filter (fun e => !(e.1 == sid)) },
     [])

/-- The `connection` callback: register the socket with
`partner = null` and `lastSeen = now()`. -/
def connectHandler (st : ServerState) (sid t : Nat) : ServerState × List (Nat × OutMsg) :=
  ({ st with activeUsers := aset st.activeUsers sid ⟨none, t⟩ }, [])

/-- The `heartbeat` handler: `socket.lastSeen = now()`. -/
def heartbeatHandler (st : ServerState) (sid t : Nat) : ServerState × List (Nat × OutMsg) :=
  ({ st with activeUsers := aupdate (fun s => { s with lastSeen := t }) st.activeUsers sid }, [])

/-- The `findPartner` handler, line by line: ban check, rate limit
(800ms), self-match guard, become-the-waiter branch, recent-pair skip,
and the pairing branch (slot cleared first, links set symmetrically,
pair recorded, `match` emitted to both sides — second caller is the
initiator). -/
def findPartnerHandler (st : ServerState) (sid t : Nat) : ServerState × List (Nat × OutMsg) :=
  if st.banned.contains sid then
    (st, [(sid, OutMsg.bannedMsg "You are banned")])
  else
    let m := markRateLimited st sid AKind.findPartner 800 t
    if m.1 then (m.2, [(sid, OutMsg.matchTimeout "Please wait briefly")])
    else
      let st1 := m.2
      match st1.waitingUser with
      | some w =>
        if w = sid then (st1, [])
        else if wasRecentlyPaired st1 sid w then (st1, [])
        else
          let st2 := { st1 with waitingUser := none }
          let st3 := setPartner st2 sid (some w)
          let st4 := setPartner st3 w (some sid)
          let st5 := recordPair st4 sid w t
          (st5, [(sid, OutMsg.matchedWith true w), (w, OutMsg.matchedWith false sid)])
      | none => ({ st1 with waitingUser := some sid }, [])

/-- The `offer` relay: forward verbatim to `socket.partner` when present,
otherwise drop silently. -/
def offerHandler (st : ServerState) (sid payload : Nat) : ServerState × List (Nat × OutMsg) :=
  match partnerOf st sid with
  | some p => (st, [(p, OutMsg.offerM payload)])
  | none => (st, [])

/-- The `answer` relay: same shape as `offer`. -/
def answerHandler (st : ServerState) (sid payload : Nat) : ServerState × List (Nat × OutMsg) :=
  match partnerOf st sid with
  | some p => (st, [(p, OutMsg.answerM payload)])
  | none => (st, [])

/-- The `candidate` relay: same shape as `offer`. -/
def candidateHandler (st : ServerState) (sid payload : Nat) : ServerState × List (Nat × OutMsg) :=
  match partnerOf st sid with
  | some p => (st, [(p, OutMsg.candidateM payload)])
  | none => (st, [])

/-- The `next` handler: rate limit (1000ms); if paired, notify the
partner with `partnerLeft` and null both links; then emit
`readyForNext` and a `findPartner` event back to the caller's client
(the server does not requeue the caller itself). -/
def nextHandler (st : ServerState) (sid t : Nat) : ServerState × List (Nat × OutMsg) :=
  let m := markRateLimited st sid AKind.next 1000 t
  if m.1 then (m.2, [])
  else
    let st1 := m.2
    let broken : ServerState × List (Nat × OutMsg) :=
      match partnerOf st1 sid with
      | some p => (setPartner (setPartner st1 p none) sid none, [(p, OutMsg.partnerLeft)])
      | none => (st1, [])
    (broken.1, broken.2 ++ [(sid, OutMsg.readyForNext), (sid, OutMsg.findPartnerPing)])

/-- The `report` handler: a missing payload returns immediately; then
rate limit (5000ms); the reported id is `socket.partner?.id ||
payload.reportedId`; the entry is appended and the reporter acked; if
the ledger now holds at least 3 entries for a truthy reported id, that
id is added to `banned` and a ban notice is emitted to its room. -/
def reportHandler (st : ServerState) (sid : Nat) (payload : Option RPayload) (t : Nat) :
    ServerState × List (Nat × OutMsg) :=
  match payload with
  | none => (st, [])
  | some pl =>
    let m := markRateLimited st sid AKind.report 5000 t
    if m.1 then (m.2, [])
    else
      let st1 := m.2
      let reportedId : Option Nat :=
        match partnerOf st1 sid with
        | some p => some p
        | none => pl.reportedId
      let entry : ReportEntry := ⟨sid, reportedId, pl.reason.getD "unspecified", t⟩
      let st2 := { st1 with reports := st1.reports ++ [entry] }
      let baseOut := [(sid, OutMsg.reportAck "Thank you. We\x27ll review the report.")]
      let cnt := st2.reports.countP (fun r => r.reportedId == reportedId)
      match reportedId with
      | some rid =>
        if 3 ≤ cnt then
          ({ st2 with banned := if st2.banned.contains rid then st2.banned else st2.banned ++ [rid] },
           baseOut ++ [(rid, OutMsg.bannedMsg "Multiple reports")])
        else (st2, baseOut)
      | none => (st2, baseOut)

/-- The ids swept by one reaper tick: sockets with
`lastSeen < now() - 45000` (truncated `Nat` subtraction agrees with the
JS signed comparison since `lastSeen ≥ 0`). -/
def staleIds (st : ServerState) (t : Nat) : List Nat :=
  (st.activeUsers.filter (fun e => decide (e.2.lastSeen < t - 45000))).map Prod.fst

/-- Run `safeDisconnect` over a list of ids, accumulating emissions. -/
def sweep (acc : ServerState × List (Nat × OutMsg)) : List Nat → ServerState × List (Nat × OutMsg)
  | [] => acc
  | x :: xs =>
    let r := safeDisconnect acc.1 x
    sweep (r.1, acc.2 ++ r.2) xs

/-- One tick of the `setInterval` reaper: `safeDisconnect` every stale
socket. -/
def reaperHandler (st : ServerState) (t : Nat) : ServerState × List (Nat × OutMsg) :=
  sweep (st, []) (staleIds st t)

/-- Firing of due `recordPair` timeouts at time `t`: each direction
whose 60s timer has expired is deleted. -/
def expireHandler (st : ServerState) (t : Nat) : ServerState × List (Nat × OutMsg) :=
  ({ st with recentPairs := st.recentPairs.filter (fun e => decide (t < e.2.2)) }, [])

/-- The inbound events of the engine (each carrying its `Date.now()`). -/
inductive Event where
  | connect (sid t : Nat)
  | heartbeat (sid t : Nat)
  | report (sid : Nat) (payload : Option RPayload) (t : Nat)
  | findPartner (sid t : Nat)
  | offer (sid payload : Nat)
  | answer (sid payload : Nat)
  | candidate (sid payload : Nat)
  | next (sid t : Nat)
  | disconnect (sid : Nat)
  | reaper (t : Nat)
  | expire (t : Nat)
deriving DecidableEq, Repr

/-- Whether `sid` is a registered (connected) socket. -/
def isActive (st : ServerState) (sid : Nat) : Bool :=
  (alookup st.activeUsers sid).isSome

/-- One engine step.  Session events fire only for connected sockets
(the transport only delivers events of live connections); `connect`
fires only for fresh ids (socket.io ids are unique). -/
def step (st : ServerState) : Event → ServerState × List (Nat × OutMsg)
  | Event.connect sid t => if isActive st sid then (st, []) else connectHandler st sid t
  | Event.heartbeat sid t => if isActive st sid then heartbeatHandler st sid t else (st, [])
  | Event.report sid payload t =>
      if isActive st sid then reportHandler st sid payload t else (st, [])
  | Event.findPartner sid t =>
      if isActive st sid then findPartnerHandler st sid t else (st, [])
  | Event.offer sid payload => if isActive st sid then offerHandler st sid payload else (st, [])
  | Event.answer sid payload => if isActive st sid then answerHandler st sid payload else (st, [])
  | Event.candidate sid payload =>
      if isActive st sid then candidateHandler st sid payload else (st, [])
  | Event.next sid t => if isActive st sid then nextHandler st sid t else (st, [])
  | Event.disconnect sid => if isActive st sid then safeDisconnect st sid else (st, [])
  | Event.reaper t => reaperHandler st t
  | Event.expire t => expireHandler st t

/-- The state at process start: every global empty. -/
def initState : ServerState :=
  { waitingUser := none, activeUsers := [], recentPairs := [],
    reports := [], banned := [], rateLimit := [] }

/-- Run a list of events from a state, discarding emissions. -/
def runFrom (st : ServerState) : List Event → ServerState
  | [] => st
  | e :: es => runFrom (step st e).1 es

/-- The state reached from process start by a list of events. -/
def runState (es : List Event) : ServerState :=
  runFrom initState es

/-- Whether an event may fire at a state under the discipline that a
paired session never issues a fresh `findPartner` (the restriction the
amended invariants are stated under). -/
def okEvent (st : ServerState) : Event → Bool
  | Event.findPartner sid _ => decide (partnerOf st sid = none)
  | _ => true

/-- A trace is good when every event satisfies `okEvent` at the state it
fires in. -/
def goodTrace : ServerState → List Event → Bool
  | _, [] => true
  | st, e :: es => okEvent st e && goodTrace (step st e).1 es

/-- The slot half of the well-formedness invariant: the waiting occupant
is registered and unpaired. -/
def SlotOk (st : ServerState) : Prop :=
  ∀ w, st.waitingUser = some w →
    (alookup st.activeUsers w).isSome = true ∧ partnerOf st w = none

/-- The linkage half of the invariant: partner links are irreflexive and
symmetric (symmetry forces the partner to be registered). -/
def Symm (st : ServerState) : Prop :=
  ∀ a b, partnerOf st a = some b → a ≠ b ∧ partnerOf st b = some a

/-- Full well-formedness invariant of the engine state. -/
def StInv (st : ServerState) : Prop := SlotOk st ∧ Symm st

/-- Executable check of `SlotOk` on a concrete state. -/
def slotOkB (st : ServerState) : Bool :=
  match st.waitingUser with
  | none => true
  | some w => (alookup st.activeUsers w).isSome && decide (partnerOf st w = none)

/-- Executable check of `Symm` on a concrete state. -/
def symmB (st : ServerState) : Bool :=
  st.activeUsers.all (fun e =>
    match e.2.partner with
    | none => true
    | some b => decide (e.1 ≠ b) && decide (partnerOf st b = some e.1))

/-- The last time stored in the rate-limit ledger for `(id, action)`,
defaulting to 0: the `RATE_LIMIT.get(key) || 0` read. -/
def lastMark (st : ServerState) (id : Nat) (action : AKind) : Nat :=
  (alookup st.rateLimit (id, action)).getD 0

/-- The reported id a `report` event resolves to:
`socket.partner?.id || payload.reportedId`. -/
def reportedTarget (st : ServerState) (sid : Nat) (pl : RPayload) : Option Nat :=
  match partnerOf st sid with
  | some p => some p
  | none => pl.reportedId

/-- Trace: sessions 1 and 2 connect and are paired; then the still-paired
session 1 issues another `findPartner` (past its 800ms cooldown) and is
placed into the empty waiting slot while keeping its partner link. -/
def trC1 : List Event :=
  [Event.connect 1 100000, Event.connect 2 100000,
   Event.findPartner 1 100000, Event.findPartner 2 100000,
   Event.findPartner 1 101000]

/-- Trace: after the `trC1` scenario, a third session connects and is
paired with the slot occupant 1, leaving the link of 2 dangling. -/
def trC2 : List Event :=
  [Event.connect 1 100000, Event.connect 2 100000,
   Event.findPartner 1 100000, Event.findPartner 2 100000,
   Event.findPartner 1 101000, Event.connect 3 101000,
   Event.findPartner 3 101000]

/-- Trace: sessions 1 and 2 connect and are paired (2 is the initiator). -/
def trC3 : List Event :=
  [Event.connect 1 100000, Event.connect 2 100000,
   Event.findPartner 1 100000, Event.findPartner 2 100000]

/-- Good trace for the amended invariants: a single session connects and
starts waiting. -/
def trW1 : List Event :=
  [Event.connect 1 100000, Event.findPartner 1 100000]

/-- Good trace for the amended symmetry claim: two sessions pair up. -/
def trW2 : List Event :=
  [Event.connect 1 100000, Event.connect 2 100000,
   Event.findPartner 1 100000, Event.findPartner 2 100000]

/-- A concrete state with sessions 1 and 2 mutually paired. -/
def stPaired : ServerState :=
  { waitingUser := none,
    activeUsers := [(1, ⟨some 2, 100000⟩), (2, ⟨some 1, 100000⟩)],
    recentPairs := [], reports := [], banned := [], rateLimit := [] }

/-- A concrete state with session 1 waiting and session 2 idle. -/
def stWaiting : ServerState :=
  { waitingUser := some 1,
    activeUsers := [(1, ⟨none, 100000⟩), (2, ⟨none, 100000⟩)],
    recentPairs := [], reports := [], banned := [], rateLimit := [] }

/-- Like `stWaiting` but with (2, 1) recorded in recent-pair memory. -/
def stWaitingRP : ServerState :=
  { waitingUser := some 1,
    activeUsers := [(1, ⟨none, 100000⟩), (2, ⟨none, 100000⟩)],
    recentPairs := [(2, 1, 160000), (1, 2, 160000)],
    reports := [], banned := [], rateLimit := [] }

/-- A concrete state where id 5 already has two ledger entries. -/
def stReports : ServerState :=
  { waitingUser := none,
    activeUsers := [(1, ⟨none, 100000⟩)],
    recentPairs := [],
    reports := [⟨7, some 5, "spam", 1000⟩, ⟨8, some 5, "abuse", 2000⟩],
    banned := [], rateLimit := [] }

/-- A concrete state where session 1 (paired with 2) has a stale
heartbeat and session 2 is fresh. -/
def stStale : ServerState :=
  { waitingUser := none,
    activeUsers := [(1, ⟨some 2, 100000⟩), (2, ⟨some 1, 199000⟩)],
    recentPairs := [], reports := [], banned := [], rateLimit := [] }

/-- A concrete state with a single unpaired session 3. -/
def stSolo : ServerState :=
  { waitingUser := none,
    activeUsers := [(3, ⟨none, 100000⟩)],
    recentPairs := [], reports := [], banned := [], rateLimit := [] }

theorem alookup_aset_self {κ α : Type} [DecidableEq κ] (l : List (κ × α)) (k : κ) (v : α) :
    alookup (aset l k v) k = some v := by
  induction l with
  | nil => simp [aset, alookup]
  | cons h t ih =>
    obtain ⟨k0, v0⟩ := h
    by_cases hk : k0 = k
    · subst hk; simp [aset, alookup]
    · simp [aset, alookup, hk, ih]

theorem alookup_aset_ne {κ α : Type} [DecidableEq κ] (l : List (κ × α)) (k k' : κ) (v : α)
    (h : k' ≠ k) : alookup (aset l k v) k' = alookup l k' := by
  induction l with
  | nil => simp [aset, alookup, Ne.symm h]
  | cons hd t ih =>
    obtain ⟨k0, v0⟩ := hd
    by_cases hk : k0 = k
    · subst hk
      simp [aset, alookup, Ne.symm h]
    · simp [aset, alookup, hk, ih]

theorem alookup_aupdate_self {κ α : Type} [DecidableEq κ] (f : α → α) (l : List (κ × α))
    (k : κ) : alookup (aupdate f l k) k = (alookup l k).map f := by
  induction l with
  | nil => simp [aupdate, alookup]
  | cons hd t ih =>
    obtain ⟨k0, v0⟩ := hd
    by_cases hk : k0 = k
    · subst hk; simp [aupdate, alookup]
    · simp [aupdate, alookup, hk, ih]

theorem alookup_aupdate_ne {κ α : Type} [DecidableEq κ] (f : α → α) (l : List (κ × α))
    (k k' : κ) (h : k' ≠ k) : alookup (aupdate f l k) k' = alookup l k' := by
  induction l with
  | nil => simp [aupdate, alookup]
  | cons hd t ih =>
    obtain ⟨k0, v0⟩ := hd
    by_cases hk : k0 = k
    · subst hk
      simp [aupdate, alookup, Ne.symm h]
    · by_cases hk' : k0 = k'
      · subst hk'; simp [aupdate, alookup, hk]
      · simp [aupdate, alookup, hk, hk', ih]

theorem alookup_adelete_self {κ α : Type} [DecidableEq κ] (l : List (κ × α)) (k : κ) :
    alookup (adelete l k) k = none := by
  induction l with
  | nil => simp [adelete, alookup]
  | cons hd t ih =>
    obtain ⟨k0, v0⟩ := hd
    by_cases hk : k0 = k
    · subst hk; simp [adelete, ih]
    · simp [adelete, alookup, hk, ih]

theorem alookup_adelete_ne {κ α : Type} [DecidableEq κ] (l : List (κ × α)) (k k' : κ)
    (h : k' ≠ k) : alookup (adelete l k) k' = alookup l k' := by
  induction l with
  | nil => simp [adelete]
  | cons hd t ih =>
    obtain ⟨k0, v0⟩ := hd
    by_cases hk : k0 = k
    · subst hk
      simp [adelete, alookup, Ne.symm h, ih]
    · simp [adelete, alookup, hk, ih]

theorem alookup_mem {κ α : Type} [DecidableEq κ] {l : List (κ × α)} {k : κ} {v : α}
    (h : alookup l k = some v) : (k, v) ∈ l := by
  induction l with
  | nil => simp [alookup] at h
  | cons hd t ih =>
    obtain ⟨k0, v0⟩ := hd
    by_cases hk : k0 = k
    · subst hk
      simp [alookup] at h
      subst h
      exact List.mem_cons_self _ _
    · simp [alookup, hk] at h
      exact List.mem_cons_of_mem _ (ih h)

theorem alookup_of_mem_nodup {κ α : Type} [DecidableEq κ] {l : List (κ × α)} {k : κ} {v : α}
    (hnd : (l.map Prod.fst).Nodup) (h : (k, v) ∈ l) : alookup l k = some v := by
  induction l with
  | nil => simp at h
  | cons hd t ih =>
    obtain ⟨k0, v0⟩ := hd
    rw [List.map_cons, List.nodup_cons] at hnd
    rcases List.mem_cons.mp h with h0 | h0
    · cases h0
      simp [alookup]
    · have hk : k0 ≠ k := by
        intro he
        subst he
        exact hnd.1 (List.mem_map.mpr ⟨(k0, v), h0, rfl⟩)
      simp only [alookup, if_neg hk]
      exact ih hnd.2 h0

theorem setPartner_waitingUser (st : ServerState) (x : Nat) (v : Option Nat) :
    (setPartner st x v).waitingUser = st.waitingUser := rfl

theorem setPartner_recentPairs (st : ServerState) (x : Nat) (v : Option Nat) :
    (setPartner st x v).recentPairs = st.recentPairs := rfl

theorem partnerOf_setPartner_self {st : ServerState} {x : Nat} (v : Option Nat)
    (h : (alookup st.activeUsers x).isSome = true) :
    partnerOf (setPartner st x v) x = v := by
  unfold partnerOf setPartner
  rw [alookup_aupdate_self]
  cases hx : alookup st.activeUsers x with
  | none => rw [hx] at h; simp at h
  | some s => simp

theorem partnerOf_setPartner_none (st : ServerState) (x : Nat) :
    partnerOf (setPartner st x none) x = none := by
  unfold partnerOf setPartner
  rw [alookup_aupdate_self]
  cases alookup st.activeUsers x <;> simp

theorem partnerOf_setPartner_ne {st : ServerState} {x y : Nat} (v : Option Nat)
    (h : y ≠ x) : partnerOf (setPartner st x v) y = partnerOf st y := by
  unfold partnerOf setPartner
  rw [alookup_aupdate_ne _ _ _ _ h]

theorem isSome_setPartner (st : ServerState) (x y : Nat) (v : Option Nat) :
    (alookup (setPartner st x v).activeUsers y).isSome =
      (alookup st.activeUsers y).isSome := by
  unfold setPartner
  by_cases h : y = x
  · subst h
    simp only [alookup_aupdate_self]
    cases alookup st.activeUsers y <;> simp
  · simp only [alookup_aupdate_ne _ _ _ _ h]

theorem partnerOf_congr {st' st : ServerState} (h : st'.activeUsers = st.activeUsers)
    (y : Nat) : partnerOf st' y = partnerOf st y := by
  unfold partnerOf
  rw [h]

theorem mrl_activeUsers (st : ServerState) (id : Nat) (a : AKind) (ms t : Nat) :
    (markRateLimited st id a ms t).2.activeUsers = st.activeUsers := by
  simp only [markRateLimited]
  split <;> rfl

theorem mrl_waitingUser (st : ServerState) (id : Nat) (a : AKind) (ms t : Nat) :
    (markRateLimited st id a ms t).2.waitingUser = st.waitingUser := by
  simp only [markRateLimited]
  split <;> rfl

theorem mrl_recentPairs (st : ServerState) (id : Nat) (a : AKind) (ms t : Nat) :
    (markRateLimited st id a ms t).2.recentPairs = st.recentPairs := by
  simp only [markRateLimited]
  split <;> rfl

theorem mrl_reports (st : ServerState) (id : Nat) (a : AKind) (ms t : Nat) :
    (markRateLimited st id a ms t).2.reports = st.reports := by
  simp only [markRateLimited]
  split <;> rfl

theorem mrl_banned (st : ServerState) (id : Nat) (a : AKind) (ms t : Nat) :
    (markRateLimited st id a ms t).2.banned = st.banned := by
  simp only [markRateLimited]
  split <;> rfl

theorem mrl_partnerOf (st : ServerState) (id : Nat) (a : AKind) (ms t y : Nat) :
    partnerOf (markRateLimited st id a ms t).2 y = partnerOf st y :=
  partnerOf_congr (mrl_activeUsers st id a ms t) y

theorem stInv_congr {st' st : ServerState} (h1 : st'.activeUsers = st.activeUsers)
    (h2 : st'.waitingUser = st.waitingUser) (h : StInv st) : StInv st' := by
  obtain ⟨hs, hy⟩ := h
  constructor
  · intro w hw
    rw [h2] at hw
    rw [h1, partnerOf_congr h1]
    exact hs w hw
  · intro a b hab
    rw [partnerOf_congr h1] at hab
    rw [partnerOf_congr h1]
    exact hy a b hab

theorem sd_st1_activeUsers (st : ServerState) (sid : Nat) :
    (if st.waitingUser = some sid then { st with waitingUser := none } else st).activeUsers
      = st.activeUsers := by
  split <;> rfl

theorem sd_partnerOf_st1 (st : ServerState) (sid y : Nat) :
    partnerOf (if st.waitingUser = some sid then { st with waitingUser := none } else st) y
      = partnerOf st y :=
  partnerOf_congr (sd_st1_activeUsers st sid) y

theorem isSome_aupdate {κ α : Type} [DecidableEq κ] (f : α → α) (l : List (κ × α)) (k y : κ) :
    (alookup (aupdate f l k) y).isSome = (alookup l y).isSome := by
  by_cases h : y = k
  · subst h
    rw [alookup_aupdate_self]
    cases alookup l y <;> simp
  · rw [alookup_aupdate_ne _ _ _ _ h]

theorem sd_eq_some (st : ServerState) (sid p : Nat) (hp : partnerOf st sid = some p) :
    safeDisconnect st sid =
      ({ waitingUser := if st.waitingUser = some sid then none else st.waitingUser,
         activeUsers := adelete (aupdate (fun s => { s with partner := none })
           (aupdate (fun s => { s with partner := none }) st.activeUsers p) sid) sid,
         recentPairs := st.recentPairs.filter (fun e => !(e.1 == sid)),
         reports := st.reports, banned := st.banned, rateLimit := st.rateLimit },
       [(p, OutMsg.partnerLeft)]) := by
  simp only [safeDisconnect, sd_partnerOf_st1, hp, setPartner]
  split <;> rfl

theorem sd_eq_none (st : ServerState) (sid : Nat) (hp : partnerOf st sid = none) :
    safeDisconnect st sid =
      ({ waitingUser := if st.waitingUser = some sid then none else st.waitingUser,
         activeUsers := adelete (aupdate (fun s => { s with partner := none })
           st.activeUsers sid) sid,
         recentPairs := st.recentPairs.filter (fun e => !(e.1 == sid)),
         reports := st.reports, banned := st.banned, rateLimit := st.rateLimit },
       []) := by
  simp only [safeDisconnect, sd_partnerOf_st1, hp, setPartner]
  split <;> rfl

theorem sd_out (st : ServerState) (sid : Nat) :
    (safeDisconnect st sid).2 =
      match partnerOf st sid with
      | some p => [(p, OutMsg.partnerLeft)]
      | none => [] := by
  cases hp : partnerOf st sid with
  | some p => rw [sd_eq_some st sid p hp]
  | none => rw [sd_eq_none st sid hp]

theorem sd_lookup_self (st : ServerState) (sid : Nat) :
    alookup (safeDisconnect st sid).1.activeUsers sid = none := by
  cases hp : partnerOf st sid with
  | some p => rw [sd_eq_some st sid p hp]; exact alookup_adelete_self _ _
  | none => rw [sd_eq_none st sid hp]; exact alookup_adelete_self _ _

theorem sd_isSome_ne (st : ServerState) {sid y : Nat} (h : y ≠ sid) :
    (alookup (safeDisconnect st sid).1.activeUsers y).isSome =
      (alookup st.activeUsers y).isSome := by
  cases hp : partnerOf st sid with
  | some p =>
    rw [sd_eq_some st sid p hp]
    show (alookup (adelete _ sid) y).isSome = _
    rw [alookup_adelete_ne _ _ _ h, isSome_aupdate, isSome_aupdate]
  | none =>
    rw [sd_eq_none st sid hp]
    show (alookup (adelete _ sid) y).isSome = _
    rw [alookup_adelete_ne _ _ _ h, isSome_aupdate]

theorem sd_absent (st : ServerState) {sid y : Nat}
    (h : alookup st.activeUsers y = none) :
    alookup (safeDisconnect st sid).1.activeUsers y = none := by
  by_cases hy : y = sid
  · subst hy; exact sd_lookup_self st y
  · have hs := sd_isSome_ne st hy
    rw [h] at hs
    simp only [Option.isSome_none] at hs
    cases hh : alookup (safeDisconnect st sid).1.activeUsers y with
    | none => rfl
    | some v => rw [hh] at hs; simp at hs

theorem sd_waitingUser (st : ServerState) (sid : Nat) :
    (safeDisconnect st sid).1.waitingUser =
      if st.waitingUser = some sid then none else st.waitingUser := by
  cases hp : partnerOf st sid with
  | some p => rw [sd_eq_some st sid p hp]
  | none => rw [sd_eq_none st sid hp]

theorem sd_waitingUser_ne_self (st : ServerState) (sid : Nat) :
    (safeDisconnect st sid).1.waitingUser ≠ some sid := by
  rw [sd_waitingUser]
  split
  · simp
  · next h => exact h

theorem sd_waitingUser_preserve_ne (st : ServerState) (sid : Nat) {z : Nat}
    (h : st.waitingUser ≠ some z) :
    (safeDisconnect st sid).1.waitingUser ≠ some z := by
  rw [sd_waitingUser]
  split
  · simp
  · exact h

theorem sd_partnerOf_ne (st : ServerState) {sid y : Nat} (hyx : y ≠ sid) :
    partnerOf (safeDisconnect st sid).1 y =
      if partnerOf st sid = some y then none else partnerOf st y := by
  cases hp : partnerOf st sid with
  | some p =>
    rw [sd_eq_some st sid p hp]
    show (alookup (adelete _ sid) y).bind Session.partner = _
    rw [alookup_adelete_ne _ _ _ hyx, alookup_aupdate_ne _ _ _ _ hyx]
    by_cases hyp : y = p
    · subst hyp
      rw [alookup_aupdate_self]
      have hcond : (some y : Option Nat) = some y := rfl
      rw [if_pos hcond]
      cases alookup st.activeUsers y <;> rfl
    · rw [alookup_aupdate_ne _ _ _ _ hyp]
      have hcond : ¬ (some p : Option Nat) = some y := by
        intro he
        exact hyp (Option.some.inj he).symm
      rw [if_neg hcond]
      rfl
  | none =>
    rw [sd_eq_none st sid hp]
    show (alookup (adelete _ sid) y).bind Session.partner = _
    rw [alookup_adelete_ne _ _ _ hyx, alookup_aupdate_ne _ _ _ _ hyx]
    have hcond : (none : Option Nat) ≠ some y := by simp
    rw [if_neg hcond]
    rfl

theorem partnerOf_of_absent {st : ServerState} {y : Nat}
    (h : alookup st.activeUsers y = none) : partnerOf st y = none := by
  unfold partnerOf
  rw [h]
  rfl

theorem sd_partner_none_stable (st : ServerState) (sid : Nat) {y : Nat}
    (h : partnerOf st y = none) : partnerOf (safeDisconnect st sid).1 y = none := by
  by_cases hy : y = sid
  · subst hy
    exact partnerOf_of_absent (sd_lookup_self st y)
  · rw [sd_partnerOf_ne st hy]
    split
    · rfl
    · exact h

theorem sd_inv (st : ServerState) (sid : Nat) (h : StInv st) :
    StInv (safeDisconnect st sid).1 := by
  obtain ⟨hs, hy⟩ := h
  constructor
  · intro w hw
    rw [sd_waitingUser] at hw
    split at hw
    · exact absurd hw (by simp)
    · next hcond =>
      have hws := hs w hw
      have hwne : w ≠ sid := by
        intro he
        subst he
        exact hcond hw
      constructor
      · rw [sd_isSome_ne st hwne]
        exact hws.1
      · rw [sd_partnerOf_ne st hwne]
        split
        · rfl
        · exact hws.2
  · intro a b hab
    by_cases ha : a = sid
    · subst ha
      rw [partnerOf_of_absent (sd_lookup_self st a)] at hab
      exact absurd hab (by simp)
    · rw [sd_partnerOf_ne st ha] at hab
      split at hab
      · exact absurd hab (by simp)
      · next hcond =>
        have hsym := hy a b hab
        have hbne : b ≠ sid := by
          intro he
          subst he
          exact hcond hsym.2
        refine ⟨hsym.1, ?_⟩
        rw [sd_partnerOf_ne st hbne]
        have hnc : ¬ partnerOf st sid = some b := by
          intro he
          have h2 := (hy sid b he).2
          rw [hsym.2] at h2
          exact ha (Option.some.inj h2)
        rw [if_neg hnc]
        exact hsym.2

theorem stInv_of_ptwise {st' st : ServerState}
    (h1 : ∀ y, partnerOf st' y = partnerOf st y)
    (h2 : ∀ y, (alookup st'.activeUsers y).isSome = (alookup st.activeUsers y).isSome)
    (h3 : st'.waitingUser = st.waitingUser) (h : StInv st) : StInv st' := by
  obtain ⟨hs, hy⟩ := h
  constructor
  · intro w hw
    rw [h3] at hw
    have hws := hs w hw
    exact ⟨by rw [h2]; exact hws.1, by rw [h1]; exact hws.2⟩
  · intro a b hab
    rw [h1] at hab
    have hsym := hy a b hab
    exact ⟨hsym.1, by rw [h1]; exact hsym.2⟩

theorem partnerOf_connect_self (st : ServerState) (sid t : Nat) :
    partnerOf (connectHandler st sid t).1 sid = none := by
  unfold partnerOf connectHandler
  show (alookup (aset st.activeUsers sid ⟨none, t⟩) sid).bind _ = none
  rw [alookup_aset_self]
  rfl

theorem partnerOf_connect_ne (st : ServerState) {sid y : Nat} (t : Nat) (h : y ≠ sid) :
    partnerOf (connectHandler st sid t).1 y = partnerOf st y := by
  unfold partnerOf connectHandler
  show (alookup (aset st.activeUsers sid ⟨none, t⟩) y).bind _ = _
  rw [alookup_aset_ne _ _ _ _ h]

theorem connect_inv (st : ServerState) (sid t : Nat)
    (hact : alookup st.activeUsers sid = none) (h : StInv st) :
    StInv (connectHandler st sid t).1 := by
  obtain ⟨hs, hy⟩ := h
  constructor
  · intro w hw
    have hw' : st.waitingUser = some w := hw
    have hws := hs w hw'
    have hwne : w ≠ sid := by
      intro he
      subst he
      rw [hact] at hws
      exact absurd hws.1 (by simp)
    constructor
    · show (alookup (aset st.activeUsers sid ⟨none, t⟩) w).isSome = true
      rw [alookup_aset_ne _ _ _ _ hwne]
      exact hws.1
    · show partnerOf (connectHandler st sid t).1 w = none
      rw [partnerOf_connect_ne st t hwne]
      exact hws.2
  · intro a b hab
    by_cases ha : a = sid
    · subst ha
      rw [partnerOf_connect_self] at hab
      exact absurd hab (by simp)
    · rw [partnerOf_connect_ne st t ha] at hab
      have hsym := hy a b hab
      have hbne : b ≠ sid := by
        intro he
        subst he
        rw [partnerOf_of_absent hact] at hsym
        exact absurd hsym.2 (by simp)
      refine ⟨hsym.1, ?_⟩
      rw [partnerOf_connect_ne st t hbne]
      exact hsym.2

theorem partnerOf_heartbeat (st : ServerState) (sid t y : Nat) :
    partnerOf (heartbeatHandler st sid t).1 y = partnerOf st y := by
  unfold partnerOf heartbeatHandler
  show (alookup (aupdate _ st.activeUsers sid) y).bind _ = _
  by_cases h : y = sid
  · subst h
    rw [alookup_aupdate_self]
    cases alookup st.activeUsers y <;> rfl
  · rw [alookup_aupdate_ne _ _ _ _ h]

theorem heartbeat_inv (st : ServerState) (sid t : Nat) (h : StInv st) :
    StInv (heartbeatHandler st sid t).1 := by
  refine stInv_of_ptwise (fun y => partnerOf_heartbeat st sid t y) (fun y => ?_) rfl h
  exact isSome_aupdate _ _ _ _

theorem offer_state (st : ServerState) (sid payload : Nat) :
    (offerHandler st sid payload).1 = st := by
  unfold offerHandler
  cases partnerOf st sid <;> rfl

theorem answer_state (st : ServerState) (sid payload : Nat) :
    (answerHandler st sid payload).1 = st := by
  unfold answerHandler
  cases partnerOf st sid <;> rfl

theorem candidate_state (st : ServerState) (sid payload : Nat) :
    (candidateHandler st sid payload).1 = st := by
  unfold candidateHandler
  cases partnerOf st sid <;> rfl

theorem next_inv (st : ServerState) (sid t : Nat) (h : StInv st) :
    StInv (nextHandler st sid t).1 := by
  have hmAct := mrl_activeUsers st sid AKind.next 1000 t
  have hmW := mrl_waitingUser st sid AKind.next 1000 t
  simp only [nextHandler]
  split
  · exact stInv_congr hmAct hmW h
  · rw [show partnerOf (markRateLimited st sid AKind.next 1000 t).2 sid = partnerOf st sid from
      mrl_partnerOf st sid AKind.next 1000 t sid]
    cases hp : partnerOf st sid with
    | none => exact stInv_congr hmAct hmW h
    | some p =>
      dsimp only
      obtain ⟨hs, hy⟩ := h
      have hpsym := hy sid p hp
      have hpne : p ≠ sid := Ne.symm hpsym.1
      have hPsid : partnerOf (setPartner (setPartner
          (markRateLimited st sid AKind.next 1000 t).2 p none) sid none) sid = none :=
        partnerOf_setPartner_none _ _
      have hPp : partnerOf (setPartner (setPartner
          (markRateLimited st sid AKind.next 1000 t).2 p none) sid none) p = none := by
        rw [partnerOf_setPartner_ne _ hpne, partnerOf_setPartner_none]
      have hPo : ∀ y, y ≠ sid → y ≠ p → partnerOf (setPartner (setPartner
          (markRateLimited st sid AKind.next 1000 t).2 p none) sid none) y = partnerOf st y := by
        intro y h1 h2
        rw [partnerOf_setPartner_ne _ h1, partnerOf_setPartner_ne _ h2, mrl_partnerOf]
      have hW : (setPartner (setPartner
          (markRateLimited st sid AKind.next 1000 t).2 p none) sid none).waitingUser
            = st.waitingUser := by
        rw [setPartner_waitingUser, setPartner_waitingUser, hmW]
      have hS : ∀ y, (alookup (setPartner (setPartner
          (markRateLimited st sid AKind.next 1000 t).2 p none) sid none).activeUsers y).isSome
            = (alookup st.activeUsers y).isSome := by
        intro y
        rw [isSome_setPartner, isSome_setPartner, hmAct]
      constructor
      · intro w hw
        rw [hW] at hw
        have hws := hs w hw
        have hwsid : w ≠ sid := by
          intro he
          subst he
          have hc := hws.2
          rw [hp] at hc
          exact absurd hc (by simp)
        have hwp : w ≠ p := by
          intro he
          subst he
          have hc := hws.2
          rw [hpsym.2] at hc
          exact absurd hc (by simp)
        exact ⟨by rw [hS]; exact hws.1, by rw [hPo w hwsid hwp]; exact hws.2⟩
      · intro a b hab
        by_cases ha1 : a = sid
        · subst ha1
          rw [hPsid] at hab
          exact absurd hab (by simp)
        by_cases ha2 : a = p
        · subst ha2
          rw [hPp] at hab
          exact absurd hab (by simp)
        rw [hPo a ha1 ha2] at hab
        have hsym := hy a b hab
        have hb1 : b ≠ sid := by
          intro he
          subst he
          have hc := hsym.2
          rw [hp] at hc
          exact ha2 (Option.some.inj hc).symm
        have hb2 : b ≠ p := by
          intro he
          subst he
          have hc := hsym.2
          rw [hpsym.2] at hc
          exact ha1 (Option.some.inj hc).symm
        exact ⟨hsym.1, by rw [hPo b hb1 hb2]; exact hsym.2⟩

theorem findPartner_inv (st : ServerState) (sid t : Nat)
    (hok : partnerOf st sid = none) (hact : (alookup st.activeUsers sid).isSome = true)
    (h : StInv st) : StInv (findPartnerHandler st sid t).1 := by
  have hmAct := mrl_activeUsers st sid AKind.findPartner 800 t
  have hmW := mrl_waitingUser st sid AKind.findPartner 800 t
  obtain ⟨hs, hy⟩ := h
  simp only [findPartnerHandler]
  split
  · exact ⟨hs, hy⟩
  · split
    · exact stInv_congr hmAct hmW ⟨hs, hy⟩
    · split
      · rename_i w heq
        have hw : st.waitingUser = some w := by rw [← hmW]; exact heq
        by_cases hwsid : w = sid
        · rw [if_pos hwsid]
          exact stInv_congr hmAct hmW ⟨hs, hy⟩
        · rw [if_neg hwsid]
          by_cases hrp : wasRecentlyPaired (markRateLimited st sid AKind.findPartner 800 t).2
              sid w = true
          · rw [if_pos hrp]
            exact stInv_congr hmAct hmW ⟨hs, hy⟩
          · rw [if_neg hrp]
            dsimp only
            have hws := hs w hw
            have hsne : sid ≠ w := fun he => hwsid he.symm
            have hisw : (alookup { (markRateLimited st sid AKind.findPartner 800 t).2 with
                waitingUser := (none : Option Nat) }.activeUsers sid).isSome = true := by
              show (alookup (markRateLimited st sid AKind.findPartner 800 t).2.activeUsers
                sid).isSome = true
              rw [hmAct]
              exact hact
            have hPsid : partnerOf (setPartner (setPartner
                { (markRateLimited st sid AKind.findPartner 800 t).2 with
                  waitingUser := (none : Option Nat) } sid (some w)) w (some sid)) sid
                  = some w := by
              rw [partnerOf_setPartner_ne _ hsne, partnerOf_setPartner_self _ hisw]
            have hPw : partnerOf (setPartner (setPartner
                { (markRateLimited st sid AKind.findPartner 800 t).2 with
                  waitingUser := (none : Option Nat) } sid (some w)) w (some sid)) w
                  = some sid := by
              rw [partnerOf_setPartner_self]
              rw [isSome_setPartner]
              show (alookup (markRateLimited st sid AKind.findPartner 800 t).2.activeUsers
                w).isSome = true
              rw [hmAct]
              exact hws.1
            have hPo : ∀ y, y ≠ sid → y ≠ w → partnerOf (setPartner (setPartner
                { (markRateLimited st sid AKind.findPartner 800 t).2 with
                  waitingUser := (none : Option Nat) } sid (some w)) w (some sid)) y
                  = partnerOf st y := by
              intro y h1 h2
              rw [partnerOf_setPartner_ne _ h2, partnerOf_setPartner_ne _ h1]
              show partnerOf (markRateLimited st sid AKind.findPartner 800 t).2 y
                = partnerOf st y
              rw [mrl_partnerOf]
            constructor
            · intro w' hww
              exact absurd hww (by simp [recordPair, setPartner])
            · intro a b hab
              have hab0 : partnerOf (setPartner (setPartner
                  { (markRateLimited st sid AKind.findPartner 800 t).2 with
                    waitingUser := (none : Option Nat) } sid (some w)) w (some sid)) a
                    = some b := hab
              by_cases ha1 : a = sid
              · subst ha1
                rw [hPsid] at hab0
                have hbw : w = b := Option.some.inj hab0
                subst hbw
                exact ⟨hsne, hPw⟩
              by_cases ha2 : a = w
              · subst ha2
                rw [hPw] at hab0
                have hbs : sid = b := Option.some.inj hab0
                subst hbs
                exact ⟨hwsid, hPsid⟩
              rw [hPo a ha1 ha2] at hab0
              have hsym := hy a b hab0
              have hb1 : b ≠ sid := by
                intro he
                subst he
                have hc := hsym.2
                rw [hok] at hc
                exact absurd hc (by simp)
              have hb2 : b ≠ w := by
                intro he
                subst he
                have hc := hsym.2
                rw [hws.2] at hc
                exact absurd hc (by simp)
              refine ⟨hsym.1, ?_⟩
              show partnerOf (setPartner (setPartner
                { (markRateLimited st sid AKind.findPartner 800 t).2 with
                  waitingUser := (none : Option Nat) } sid (some w)) w (some sid)) b = some a
              rw [hPo b hb1 hb2]
              exact hsym.2
      · dsimp only
        constructor
        · intro w hww
          have hwsid : sid = w := Option.some.inj hww
          subst hwsid
          constructor
          · show (alookup (markRateLimited st sid AKind.findPartner 800 t).2.activeUsers
              sid).isSome = true
            rw [hmAct]
            exact hact
          · show partnerOf (markRateLimited st sid AKind.findPartner 800 t).2 sid = none
            rw [mrl_partnerOf]
            exact hok
        · intro a b hab
          have hab' : partnerOf st a = some b := by
            rw [← mrl_partnerOf st sid AKind.findPartner 800 t a]
            exact hab
          have hsym := hy a b hab'
          refine ⟨hsym.1, ?_⟩
          show partnerOf (markRateLimited st sid AKind.findPartner 800 t).2 b = some a
          rw [mrl_partnerOf]
          exact hsym.2

theorem report_activeUsers (st : ServerState) (sid : Nat) (payload : Option RPayload)
    (t : Nat) : (reportHandler st sid payload t).1.activeUsers = st.activeUsers := by
  cases payload with
  | none => rfl
  | some pl =>
    simp only [reportHandler]
    split
    · exact mrl_activeUsers _ _ _ _ _
    · split
      · split
        · exact mrl_activeUsers _ _ _ _ _
        · exact mrl_activeUsers _ _ _ _ _
      · exact mrl_activeUsers _ _ _ _ _

theorem report_waitingUser (st : ServerState) (sid : Nat) (payload : Option RPayload)
    (t : Nat) : (reportHandler st sid payload t).1.waitingUser = st.waitingUser := by
  cases payload with
  | none => rfl
  | some pl =>
    simp only [reportHandler]
    split
    · exact mrl_waitingUser _ _ _ _ _
    · split
      · split
        · exact mrl_waitingUser _ _ _ _ _
        · exact mrl_waitingUser _ _ _ _ _
      · exact mrl_waitingUser _ _ _ _ _

theorem report_inv (st : ServerState) (sid : Nat) (payload : Option RPayload) (t : Nat)
    (h : StInv st) : StInv (reportHandler st sid payload t).1 :=
  stInv_congr (report_activeUsers st sid payload t) (report_waitingUser st sid payload t) h

theorem expire_inv (st : ServerState) (t : Nat) (h : StInv st) :
    StInv (expireHandler st t).1 :=
  stInv_congr rfl rfl h

theorem sweep_inv (ids : List Nat) :
    ∀ st (o : List (Nat × OutMsg)), StInv st → StInv (sweep (st, o) ids).1 := by
  induction ids with
  | nil => intro st o h; exact h
  | cons x xs ih =>
    intro st o h
    exact ih (safeDisconnect st x).1 _ (sd_inv st x h)

theorem reaper_inv (st : ServerState) (t : Nat) (h : StInv st) :
    StInv (reaperHandler st t).1 :=
  sweep_inv (staleIds st t) st [] h

theorem isActive_false_absent {st : ServerState} {sid : Nat}
    (h : isActive st sid = false) : alookup st.activeUsers sid = none := by
  unfold isActive at h
  cases hh : alookup st.activeUsers sid with
  | none => rfl
  | some v => rw [hh] at h; simp at h

theorem stInv_step (st : ServerState) (e : Event) (h : StInv st)
    (hok : okEvent st e = true) : StInv (step st e).1 := by
  cases e with
  | connect sid t =>
    simp only [step]
    split
    · exact h
    · next hact =>
      exact connect_inv st sid t
        (isActive_false_absent (Bool.not_eq_true _ ▸ Bool.of_not_eq_true hact)) h
  | heartbeat sid t =>
    simp only [step]
    split
    · exact heartbeat_inv st sid t h
    · exact h
  | report sid payload t =>
    simp only [step]
    split
    · exact report_inv st sid payload t h
    · exact h
  | findPartner sid t =>
    simp only [step]
    split
    · next hact =>
      exact findPartner_inv st sid t (of_decide_eq_true hok) hact h
    · exact h
  | offer sid payload =>
    simp only [step]
    split
    · rw [offer_state]; exact h
    · exact h
  | answer sid payload =>
    simp only [step]
    split
    · rw [answer_state]; exact h
    · exact h
  | candidate sid payload =>
    simp only [step]
    split
    · rw [candidate_state]; exact h
    · exact h
  | next sid t =>
    simp only [step]
    split
    · exact next_inv st sid t h
    · exact h
  | disconnect sid =>
    simp only [step]
    split
    · exact sd_inv st sid h
    · exact h
  | reaper t => exact reaper_inv st t h
  | expire t => exact expire_inv st t h

theorem stInv_runFrom (es : List Event) :
    ∀ st, StInv st → goodTrace st es = true → StInv (runFrom st es) := by
  induction es with
  | nil => intro st h _; exact h
  | cons e es ih =>
    intro st h hg
    simp only [goodTrace, Bool.and_eq_true] at hg
    exact ih (step st e).1 (stInv_step st e h hg.1) hg.2

theorem stInv_init : StInv initState := by
  constructor
  · intro w hw
    exact absurd hw (by simp [initState])
  · intro a b hab
    exact absurd hab (by simp [initState, partnerOf, alookup])

theorem slotOk_of_b {st : ServerState} (h : slotOkB st = true) : SlotOk st := by
  intro w hw
  unfold slotOkB at h
  rw [hw] at h
  simp only [Bool.and_eq_true, decide_eq_true_eq] at h
  exact h

theorem symm_of_b {st : ServerState} (h : symmB st = true) : Symm st := by
  intro a b hab
  unfold partnerOf at hab
  cases hl : alookup st.activeUsers a with
  | none =>
    rw [hl] at hab
    exact absurd hab (by simp)
  | some sa =>
    rw [hl] at hab
    have hab' : sa.partner = some b := hab
    have hmem := alookup_mem hl
    unfold symmB at h
    rw [List.all_eq_true] at h
    have h2 := h (a, sa) hmem
    rw [hab'] at h2
    simp only [Bool.and_eq_true, decide_eq_true_eq] at h2
    exact h2

theorem mem_staleIds {st : ServerState} {sid : Nat} {sess : Session} {t : Nat}
    (hlk : alookup st.activeUsers sid = some sess) (hst : sess.lastSeen < t - 45000) :
    sid ∈ staleIds st t := by
  unfold staleIds
  refine List.mem_map.mpr ⟨(sid, sess), ?_, rfl⟩
  rw [List.mem_filter]
  exact ⟨alookup_mem hlk, by simpa using hst⟩

theorem not_mem_staleIds {st : ServerState} {p : Nat} {psess : Session} {t : Nat}
    (hnd : (st.activeUsers.map Prod.fst).Nodup)
    (hlk : alookup st.activeUsers p = some psess)
    (hst : ¬ psess.lastSeen < t - 45000) : p ∉ staleIds st t := by
  unfold staleIds
  intro hmem
  rcases List.mem_map.mp hmem with ⟨e, he, hfst⟩
  rw [List.mem_filter] at he
  obtain ⟨e1, e2⟩ := e
  cases hfst
  have hlk2 := alookup_of_mem_nodup hnd he.1
  rw [hlk] at hlk2
  have he2 : psess = e2 := Option.some.inj hlk2
  subst he2
  exact hst (by simpa using he.2)

theorem staleIds_nodup {st : ServerState}
    (hnd : (st.activeUsers.map Prod.fst).Nodup) (t : Nat) : (staleIds st t).Nodup :=
  List.Nodup.sublist ((List.filter_sublist _).map Prod.fst) hnd

theorem sweep_absent (ids : List Nat) :
    ∀ st (o : List (Nat × OutMsg)) (y : Nat), alookup st.activeUsers y = none →
      alookup (sweep (st, o) ids).1.activeUsers y = none := by
  induction ids with
  | nil => intro st o y h; exact h
  | cons x xs ih => intro st o y h; exact ih _ _ y (sd_absent st h)

theorem sweep_removes (ids : List Nat) :
    ∀ st (o : List (Nat × OutMsg)) (y : Nat), y ∈ ids →
      alookup (sweep (st, o) ids).1.activeUsers y = none := by
  induction ids with
  | nil => intro st o y h; simp at h
  | cons x xs ih =>
    intro st o y h
    rcases List.mem_cons.mp h with h1 | h1
    · subst h1
      exact sweep_absent xs _ _ y (sd_lookup_self st y)
    · exact ih _ _ y h1

theorem sweep_slot_preserve (ids : List Nat) :
    ∀ st (o : List (Nat × OutMsg)) (y : Nat), st.waitingUser ≠ some y →
      (sweep (st, o) ids).1.waitingUser ≠ some y := by
  induction ids with
  | nil => intro st o y h; exact h
  | cons x xs ih => intro st o y h; exact ih _ _ y (sd_waitingUser_preserve_ne st x h)

theorem sweep_slot_ne (ids : List Nat) :
    ∀ st (o : List (Nat × OutMsg)) (y : Nat), y ∈ ids →
      (sweep (st, o) ids).1.waitingUser ≠ some y := by
  induction ids with
  | nil => intro st o y h; simp at h
  | cons x xs ih =>
    intro st o y h
    rcases List.mem_cons.mp h with h1 | h1
    · subst h1
      exact sweep_slot_preserve xs _ _ y (sd_waitingUser_ne_self st y)
    · exact ih _ _ y h1

theorem sweep_out_mono (ids : List Nat) :
    ∀ st (o : List (Nat × OutMsg)) (m : Nat × OutMsg), m ∈ o →
      m ∈ (sweep (st, o) ids).2 := by
  induction ids with
  | nil => intro st o m h; exact h
  | cons x xs ih =>
    intro st o m h
    exact ih _ _ m (List.mem_append.mpr (Or.inl h))

theorem sweep_partner_none (ids : List Nat) :
    ∀ st (o : List (Nat × OutMsg)) (y : Nat), partnerOf st y = none →
      partnerOf (sweep (st, o) ids).1 y = none := by
  induction ids with
  | nil => intro st o y h; exact h
  | cons x xs ih => intro st o y h; exact ih _ _ y (sd_partner_none_stable st x h)

theorem sweep_notify (ids : List Nat) :
    ∀ st (o : List (Nat × OutMsg)) (sid p : Nat), StInv st → ids.Nodup →
      sid ∈ ids → p ∉ ids → partnerOf st sid = some p →
      (p, OutMsg.partnerLeft) ∈ (sweep (st, o) ids).2 ∧
      partnerOf (sweep (st, o) ids).1 p = none := by
  induction ids with
  | nil => intro st o sid p _ _ h _ _; simp at h
  | cons x xs ih =>
    intro st o sid p hinv hnd hsid hp hpair
    have hpx : p ≠ x := fun he => hp (he ▸ List.mem_cons_self x xs)
    simp only [sweep]
    rcases List.mem_cons.mp hsid with h1 | h1
    · subst h1
      constructor
      · apply sweep_out_mono
        refine List.mem_append.mpr (Or.inr ?_)
        simp [sd_out, hpair]
      · apply sweep_partner_none
        rw [sd_partnerOf_ne st hpx, hpair, if_pos rfl]
    · have hsx : sid ≠ x := by
        intro he
        subst he
        exact (List.nodup_cons.mp hnd).1 h1
      obtain ⟨hs, hy⟩ := hinv
      have hxs : ¬ partnerOf st x = some sid := by
        intro he
        have h2 := (hy x sid he).2
        rw [hpair] at h2
        exact hpx (Option.some.inj h2)
      have hpair' : partnerOf (safeDisconnect st x).1 sid = some p := by
        rw [sd_partnerOf_ne st hsx, if_neg hxs]
        exact hpair
      exact ih _ _ sid p (sd_inv st x ⟨hs, hy⟩) (List.nodup_cons.mp hnd).2 h1
        (fun hpp => hp (List.mem_cons_of_mem x hpp)) hpair'

/-- C1, counterexample: the trace `trC1` (connects and findPartner calls
only) reaches a state in which session 1 occupies the waiting slot while
still holding a partner link to session 2 — the claimed XOR invariant
fails on the code, because `findPartner` never checks whether its caller
is already paired. -/
theorem C1_counterexample :
    (runState trC1).waitingUser = some 1 ∧ partnerOf (runState trC1) 1 = some 2 := by
  decide

/-- C1, amended: in every state reachable by a sequence of events in
which every `findPartner` is issued by a session that currently has no
partner, a session occupying the waiting slot has no partner link, and a
session with a partner link does not occupy the slot. -/
theorem C1_waiting_xor_partner (es : List Event)
    (h : goodTrace initState es = true) :
    (∀ w, (runState es).waitingUser = some w → partnerOf (runState es) w = none) ∧
    (∀ s p, partnerOf (runState es) s = some p → (runState es).waitingUser ≠ some s) := by
  have hinv := stInv_runFrom es initState stInv_init h
  constructor
  · intro w hw
    exact (hinv.1 w hw).2
  · intro s p hp hw
    have hc : partnerOf (runState es) s = none := (hinv.1 s hw).2
    rw [hp] at hc
    exact absurd hc (by simp)

/-- C1, witness: the amended theorem applied to the concrete good trace
`trW1`, in whose final state session 1 waits with no partner. -/
theorem C1_waiting_xor_partner_witness :
    goodTrace initState trW1 = true ∧ partnerOf (runState trW1) 1 = none :=
  ⟨by decide, (C1_waiting_xor_partner trW1 (by decide)).1 1 (by decide)⟩

/-- C2, counterexample: the trace `trC2` reaches a state where session 2
links to session 1 but session 1 links to session 3 — partner links are
not symmetric in every reachable state, because a paired session that
issues `findPartner` can be re-paired without its old peer being
unlinked. -/
theorem C2_counterexample :
    partnerOf (runState trC2) 2 = some 1 ∧ partnerOf (runState trC2) 1 = some 3 ∧
      ¬ partnerOf (runState trC2) 1 = some 2 := by
  decide

/-- C2, amended: partner links are symmetric in every state reachable by
a sequence in which every `findPartner` is issued by a partner-less
session; moreover, from any state, a non-rate-limited `next` by one side
of a pair, or a disconnect of one side, clears both links together. -/
theorem C2_partner_symmetry :
    (∀ es, goodTrace initState es = true →
      ∀ a b, partnerOf (runState es) a = some b →
        a ≠ b ∧ partnerOf (runState es) b = some a) ∧
    (∀ st (sid p t : Nat), partnerOf st sid = some p → p ≠ sid →
      (markRateLimited st sid AKind.next 1000 t).1 = false →
      partnerOf (nextHandler st sid t).1 sid = none ∧
      partnerOf (nextHandler st sid t).1 p = none) ∧
    (∀ st (sid p : Nat), partnerOf st sid = some p → p ≠ sid →
      partnerOf (safeDisconnect st sid).1 sid = none ∧
      partnerOf (safeDisconnect st sid).1 p = none) := by
  refine ⟨?_, ?_, ?_⟩
  · intro es h a b hab
    exact (stInv_runFrom es initState stInv_init h).2 a b hab
  · intro st sid p t hp hpne hrl
    have hcond : ¬ ((markRateLimited st sid AKind.next 1000 t).1 = true) := by
      rw [hrl]; simp
    simp only [nextHandler]
    rw [if_neg hcond]
    rw [show partnerOf (markRateLimited st sid AKind.next 1000 t).2 sid = partnerOf st sid from
      mrl_partnerOf st sid AKind.next 1000 t sid]
    rw [hp]
    dsimp only
    constructor
    · exact partnerOf_setPartner_none _ _
    · rw [partnerOf_setPartner_ne _ hpne, partnerOf_setPartner_none]
  · intro st sid p hp hpne
    constructor
    · exact partnerOf_of_absent (sd_lookup_self st sid)
    · rw [sd_partnerOf_ne st hpne, hp, if_pos rfl]

/-- C2, witness: symmetry holds in the final state of the concrete good
trace `trW2`, and on the concrete paired state `stPaired` both `next` by
session 1 and a disconnect of session 1 clear both links. -/
theorem C2_partner_symmetry_witness :
    (1 ≠ 2 ∧ partnerOf (runState trW2) 2 = some 1) ∧
    (partnerOf (nextHandler stPaired 1 101000).1 1 = none ∧
      partnerOf (nextHandler stPaired 1 101000).1 2 = none) ∧
    (partnerOf (safeDisconnect stPaired 1).1 1 = none ∧
      partnerOf (safeDisconnect stPaired 1).1 2 = none) :=
  ⟨C2_partner_symmetry.1 trW2 (by decide) 1 2 (by decide),
   C2_partner_symmetry.2.1 stPaired 1 2 101000 (by decide) (by decide) (by decide),
   C2_partner_symmetry.2.2 stPaired 1 2 (by decide) (by decide)⟩

/-- C3, counterexample: in the paired state reached by `trC3`, session 2
(partnered with 1) issues a non-rate-limited `next`; the partner is told
`partnerLeft` and the caller receives `readyForNext` plus a client-bound
`findPartner` event, but the waiting slot ends empty — session 2 is not
re-queued server-side, contradicting the claim that the state equals
`release` followed by `requestMatch` with 2 as the new occupant. -/
theorem C3_counterexample :
    partnerOf (runState trC3) 2 = some 1 ∧
    (step (runState trC3) (Event.next 2 101000)).2 =
      [(1, OutMsg.partnerLeft), (2, OutMsg.readyForNext), (2, OutMsg.findPartnerPing)] ∧
    (step (runState trC3) (Event.next 2 101000)).1.waitingUser = none ∧
    ¬ (step (runState trC3) (Event.next 2 101000)).1.waitingUser = some 2 := by
  decide

/-- C3, amended: a non-rate-limited `next` from a paired session notifies
the partner with `partnerLeft`, clears both links, and sends
`readyForNext` and a `findPartner` event back to the caller's client; the
waiting slot is left untouched — the caller is re-queued only if its
client answers the `findPartner` event with a fresh request, not by the
`next` handler itself. -/
theorem C3_next_behavior (st : ServerState) (sid p t : Nat)
    (hrl : (markRateLimited st sid AKind.next 1000 t).1 = false)
    (hp : partnerOf st sid = some p) (hpne : p ≠ sid) :
    (nextHandler st sid t).2 =
      [(p, OutMsg.partnerLeft), (sid, OutMsg.readyForNext), (sid, OutMsg.findPartnerPing)] ∧
    partnerOf (nextHandler st sid t).1 sid = none ∧
    partnerOf (nextHandler st sid t).1 p = none ∧
    (nextHandler st sid t).1.waitingUser = st.waitingUser := by
  have hcond : ¬ ((markRateLimited st sid AKind.next 1000 t).1 = true) := by
    rw [hrl]; simp
  simp only [nextHandler]
  rw [if_neg hcond]
  rw [show partnerOf (markRateLimited st sid AKind.next 1000 t).2 sid = partnerOf st sid from
    mrl_partnerOf st sid AKind.next 1000 t sid]
  rw [hp]
  dsimp only
  refine ⟨rfl, partnerOf_setPartner_none _ _, ?_, ?_⟩
  · rw [partnerOf_setPartner_ne _ hpne, partnerOf_setPartner_none]
  · rw [setPartner_waitingUser, setPartner_waitingUser, mrl_waitingUser]

/-- C3, witness: the amended `next` behavior on the concrete paired state
`stPaired` with caller 2. -/
theorem C3_next_behavior_witness :
    (nextHandler stPaired 2 101000).2 =
      [(1, OutMsg.partnerLeft), (2, OutMsg.readyForNext), (2, OutMsg.findPartnerPing)] ∧
    partnerOf (nextHandler stPaired 2 101000).1 2 = none ∧
    partnerOf (nextHandler stPaired 2 101000).1 1 = none ∧
    (nextHandler stPaired 2 101000).1.waitingUser = stPaired.waitingUser :=
  C3_next_behavior stPaired 2 1 101000 (by decide) (by decide) (by decide)

theorem wasRecentlyPaired_congr {st' st : ServerState}
    (h : st'.recentPairs = st.recentPairs) (a b : Nat) :
    wasRecentlyPaired st' a b = wasRecentlyPaired st a b := by
  unfold wasRecentlyPaired
  rw [h]

/-- C4: a `findPartner` from a non-banned, non-rate-limited session `sid`
while a distinct session `w` holds the slot and `(sid, w)` is not in
recent-pair memory clears the slot, links the two symmetrically, records
both directions of the pair with expiry `t + 60000` (60s), and emits
exactly one `match` per side: the second caller `sid` with
initiator = true, the prior occupant `w` with initiator = false, each
carrying the peer's id. -/
theorem C4_pairing (st : ServerState) (sid w t : Nat)
    (hban : st.banned.contains sid = false)
    (hrl : (markRateLimited st sid AKind.findPartner 800 t).1 = false)
    (hw : st.waitingUser = some w) (hne : ¬ w = sid)
    (hrp : wasRecentlyPaired st sid w = false)
    (hsid : (alookup st.activeUsers sid).isSome = true)
    (hwa : (alookup st.activeUsers w).isSome = true) :
    (findPartnerHandler st sid t).1.waitingUser = none ∧
    partnerOf (findPartnerHandler st sid t).1 sid = some w ∧
    partnerOf (findPartnerHandler st sid t).1 w = some sid ∧
    (sid, w, t + 60000) ∈ (findPartnerHandler st sid t).1.recentPairs ∧
    (w, sid, t + 60000) ∈ (findPartnerHandler st sid t).1.recentPairs ∧
    (findPartnerHandler st sid t).2 =
      [(sid, OutMsg.matchedWith true w), (w, OutMsg.matchedWith false sid)] := by
  have hmAct := mrl_activeUsers st sid AKind.findPartner 800 t
  have hmRP := mrl_recentPairs st sid AKind.findPartner 800 t
  have hbcond : ¬ (st.banned.contains sid = true) := by rw [hban]; simp
  have hrcond : ¬ ((markRateLimited st sid AKind.findPartner 800 t).1 = true) := by
    rw [hrl]; simp
  have hwrp : ¬ (wasRecentlyPaired (markRateLimited st sid AKind.findPartner 800 t).2
      sid w = true) := by
    rw [wasRecentlyPaired_congr hmRP, hrp]; simp
  have hsne : sid ≠ w := fun he => hne he.symm
  simp only [findPartnerHandler]
  rw [if_neg hbcond, if_neg hrcond]
  rw [show (markRateLimited st sid AKind.findPartner 800 t).2.waitingUser = some w from by
    rw [mrl_waitingUser]; exact hw]
  dsimp only
  rw [if_neg hne, if_neg hwrp]
  have hisw : (alookup { (markRateLimited st sid AKind.findPartner 800 t).2 with
      waitingUser := (none : Option Nat) }.activeUsers sid).isSome = true := by
    show (alookup (markRateLimited st sid AKind.findPartner 800 t).2.activeUsers
      sid).isSome = true
    rw [hmAct]
    exact hsid
  refine ⟨rfl, ?_, ?_, ?_, ?_, rfl⟩
  · show partnerOf (setPartner (setPartner
      { (markRateLimited st sid AKind.findPartner 800 t).2 with
        waitingUser := (none : Option Nat) } sid (some w)) w (some sid)) sid = some w
    rw [partnerOf_setPartner_ne _ hsne, partnerOf_setPartner_self _ hisw]
  · show partnerOf (setPartner (setPartner
      { (markRateLimited st sid AKind.findPartner 800 t).2 with
        waitingUser := (none : Option Nat) } sid (some w)) w (some sid)) w = some sid
    rw [partnerOf_setPartner_self]
    rw [isSome_setPartner]
    show (alookup (markRateLimited st sid AKind.findPartner 800 t).2.activeUsers
      w).isSome = true
    rw [hmAct]
    exact hwa
  · show (sid, w, t + 60000) ∈ (recordPair (setPartner (setPartner
      { (markRateLimited st sid AKind.findPartner 800 t).2 with
        waitingUser := (none : Option Nat) } sid (some w)) w (some sid)) sid w t).recentPairs
    simp [recordPair, setPartner]
  · show (w, sid, t + 60000) ∈ (recordPair (setPartner (setPartner
      { (markRateLimited st sid AKind.findPartner 800 t).2 with
        waitingUser := (none : Option Nat) } sid (some w)) w (some sid)) sid w t).recentPairs
    simp [recordPair, setPartner]

/-- C4, witness: pairing on the concrete state `stWaiting` (1 waiting,
2 the second caller). -/
theorem C4_pairing_witness :
    (findPartnerHandler stWaiting 2 100000).1.waitingUser = none ∧
    partnerOf (findPartnerHandler stWaiting 2 100000).1 2 = some 1 ∧
    partnerOf (findPartnerHandler stWaiting 2 100000).1 1 = some 2 ∧
    (2, 1, 100000 + 60000) ∈ (findPartnerHandler stWaiting 2 100000).1.recentPairs ∧
    (1, 2, 100000 + 60000) ∈ (findPartnerHandler stWaiting 2 100000).1.recentPairs ∧
    (findPartnerHandler stWaiting 2 100000).2 =
      [(2, OutMsg.matchedWith true 1), (1, OutMsg.matchedWith false 2)] :=
  C4_pairing stWaiting 2 1 100000 (by decide) (by decide) (by decide) (by decide)
    (by decide) (by decide) (by decide)

/-- C5: a `findPartner` from a non-banned, non-rate-limited session `sid`
while a distinct session `w` holds the slot and `(sid, w)` is in
recent-pair memory leaves the slot on `w`, changes no registry entry (so
no partner link), leaves recent-pair memory unchanged, and emits
nothing — the requester is simply dropped. -/
theorem C5_recent_pair_skip (st : ServerState) (sid w t : Nat)
    (hban : st.banned.contains sid = false)
    (hrl : (markRateLimited st sid AKind.findPartner 800 t).1 = false)
    (hw : st.waitingUser = some w) (hne : ¬ w = sid)
    (hrp : wasRecentlyPaired st sid w = true) :
    (findPartnerHandler st sid t).1.waitingUser = some w ∧
    (findPartnerHandler st sid t).1.activeUsers = st.activeUsers ∧
    (findPartnerHandler st sid t).1.recentPairs = st.recentPairs ∧
    (findPartnerHandler st sid t).2 = [] := by
  have hbcond : ¬ (st.banned.contains sid = true) := by rw [hban]; simp
  have hrcond : ¬ ((markRateLimited st sid AKind.findPartner 800 t).1 = true) := by
    rw [hrl]; simp
  have hwrp : wasRecentlyPaired (markRateLimited st sid AKind.findPartner 800 t).2
      sid w = true := by
    rw [wasRecentlyPaired_congr (mrl_recentPairs st sid AKind.findPartner 800 t), hrp]
  simp only [findPartnerHandler]
  rw [if_neg hbcond, if_neg hrcond]
  rw [show (markRateLimited st sid AKind.findPartner 800 t).2.waitingUser = some w from by
    rw [mrl_waitingUser]; exact hw]
  dsimp only
  rw [if_neg hne, if_pos hwrp]
  refine ⟨?_, ?_, ?_, rfl⟩
  · rw [mrl_waitingUser]
    exact hw
  · exact mrl_activeUsers _ _ _ _ _
  · exact mrl_recentPairs _ _ _ _ _

/-- C5, witness: the skip on the concrete state `stWaitingRP` where
(2, 1) is a recent pair. -/
theorem C5_recent_pair_skip_witness :
    (findPartnerHandler stWaitingRP 2 100000).1.waitingUser = some 1 ∧
    (findPartnerHandler stWaitingRP 2 100000).1.activeUsers = stWaitingRP.activeUsers ∧
    (findPartnerHandler stWaitingRP 2 100000).1.recentPairs = stWaitingRP.recentPairs ∧
    (findPartnerHandler stWaitingRP 2 100000).2 = [] :=
  C5_recent_pair_skip stWaitingRP 2 1 100000 (by decide) (by decide) (by decide)
    (by decide) (by decide)

/-- C6: `markRateLimited` reads the stored last-invocation time for
`(id, action)` (0 when absent); within the window it reports limited and
leaves the whole state unchanged; outside the window it stores the
current time and reports allowed.  Consequently a repeated call within
`ms` of a successful mark is limited with no state change, and the same
call at or after `t + ms` succeeds again. -/
theorem C6_rate_limit (st : ServerState) (id : Nat) (a : AKind) (ms t u : Nat) :
    ((t : Int) - (lastMark st id a : Int) < (ms : Int) →
      markRateLimited st id a ms t = (true, st)) ∧
    (¬ ((t : Int) - (lastMark st id a : Int) < (ms : Int)) →
      markRateLimited st id a ms t =
        (false, { st with rateLimit := aset st.rateLimit (id, a) t }) ∧
      ((u : Int) - (t : Int) < (ms : Int) →
        markRateLimited (markRateLimited st id a ms t).2 id a ms u =
          (true, (markRateLimited st id a ms t).2)) ∧
      (¬ ((u : Int) - (t : Int) < (ms : Int)) →
        (markRateLimited (markRateLimited st id a ms t).2 id a ms u).1 = false)) := by
  constructor
  · intro h
    unfold lastMark at h
    simp only [markRateLimited]
    rw [if_pos h]
  · intro h
    unfold lastMark at h
    have he : markRateLimited st id a ms t =
        (false, { st with rateLimit := aset st.rateLimit (id, a) t }) := by
      simp only [markRateLimited]
      rw [if_neg h]
    refine ⟨he, ?_, ?_⟩
    · intro hu
      rw [he]
      show markRateLimited { st with rateLimit := aset st.rateLimit (id, a) t } id a ms u
        = (true, { st with rateLimit := aset st.rateLimit (id, a) t })
      simp only [markRateLimited]
      rw [show (alookup (aset st.rateLimit (id, a) t) (id, a)).getD 0 = t from by
        rw [alookup_aset_self]; rfl]
      rw [if_pos hu]
    · intro hu
      rw [he]
      show (markRateLimited { st with rateLimit := aset st.rateLimit (id, a) t }
        id a ms u).1 = false
      simp only [markRateLimited]
      rw [show (alookup (aset st.rateLimit (id, a) t) (id, a)).getD 0 = t from by
        rw [alookup_aset_self]; rfl]
      rw [if_neg hu]

/-- C6, witness: concrete runs of the limiter — limited within the
window (fresh key with default 0 at t = 500), allowed outside it, a
repeat at +500ms limited with the state untouched, and a repeat at
+900ms allowed again. -/
theorem C6_rate_limit_witness :
    markRateLimited initState 1 AKind.findPartner 800 500 = (true, initState) ∧
    markRateLimited initState 1 AKind.findPartner 800 100000 =
      (false, { initState with
        rateLimit := aset initState.rateLimit (1, AKind.findPartner) 100000 }) ∧
    markRateLimited (markRateLimited initState 1 AKind.findPartner 800 100000).2 1
        AKind.findPartner 800 100500 =
      (true, (markRateLimited initState 1 AKind.findPartner 800 100000).2) ∧
    (markRateLimited (markRateLimited initState 1 AKind.findPartner 800 100000).2 1
        AKind.findPartner 800 100900).1 = false :=
  ⟨(C6_rate_limit initState 1 AKind.findPartner 800 500 0).1 (by decide),
   ((C6_rate_limit initState 1 AKind.findPartner 800 100000 100500).2 (by decide)).1,
   ((C6_rate_limit initState 1 AKind.findPartner 800 100000 100500).2 (by decide)).2.1
     (by decide),
   ((C6_rate_limit initState 1 AKind.findPartner 800 100000 100900).2 (by decide)).2.2
     (by decide)⟩

theorem contains_bansert (l : List Nat) (x : Nat) :
    (if l.contains x then l else l ++ [x]).contains x = true := by
  by_cases h : l.contains x = true
  · rw [if_pos h]
    exact h
  · rw [if_neg h]
    exact List.elem_eq_true_of_mem (List.mem_append_right _ (List.mem_singleton.mpr rfl))

/-- C7: a non-rate-limited `report` with a payload appends one ledger
entry whose reported id is the reporter's current partner when one
exists and the caller-supplied target otherwise, acknowledges the
reporter, and whenever the ledger holds at least 3 entries for that
(defined) reported id — the third report and every later one — the id is
in the ban set afterwards and a ban notice is emitted to its room (the
transport delivers it only if that id is connected). -/
theorem C7_report (st : ServerState) (sid t : Nat) (pl : RPayload)
    (hrl : (markRateLimited st sid AKind.report 5000 t).1 = false) :
    (reportHandler st sid (some pl) t).1.reports =
      st.reports ++ [⟨sid, reportedTarget st sid pl, pl.reason.getD "unspecified", t⟩] ∧
    (sid, OutMsg.reportAck "Thank you. We\x27ll review the report.")
      ∈ (reportHandler st sid (some pl) t).2 ∧
    (∀ r, reportedTarget st sid pl = some r →
      3 ≤ (st.reports ++
            [(⟨sid, reportedTarget st sid pl, pl.reason.getD "unspecified", t⟩ :
              ReportEntry)]).countP
            (fun x => x.reportedId == reportedTarget st sid pl) →
      (reportHandler st sid (some pl) t).1.banned.contains r = true ∧
      (r, OutMsg.bannedMsg "Multiple reports") ∈ (reportHandler st sid (some pl) t).2) := by
  have hrcond : ¬ ((markRateLimited st sid AKind.report 5000 t).1 = true) := by
    rw [hrl]; simp
  have hmRep := mrl_reports st sid AKind.report 5000 t
  have hmBan := mrl_banned st sid AKind.report 5000 t
  simp only [reportHandler]
  rw [if_neg hrcond]
  rw [show partnerOf (markRateLimited st sid AKind.report 5000 t).2 sid = partnerOf st sid from
    mrl_partnerOf st sid AKind.report 5000 t sid]
  unfold reportedTarget
  cases hpt : partnerOf st sid with
  | some p =>
    dsimp only
    split
    · next hcond =>
      refine ⟨?_, ?_, ?_⟩
      · show (markRateLimited st sid AKind.report 5000 t).2.reports ++ _ = _
        rw [hmRep]
      · exact List.mem_append.mpr (Or.inl (List.mem_singleton.mpr rfl))
      · intro r hr _
        have hpr : p = r := Option.some.inj hr
        subst hpr
        constructor
        · show (if (markRateLimited st sid AKind.report 5000 t).2.banned.contains p
              then (markRateLimited st sid AKind.report 5000 t).2.banned
              else (markRateLimited st sid AKind.report 5000 t).2.banned ++ [p]).contains p
              = true
          exact contains_bansert _ _
        · exact List.mem_append.mpr (Or.inr (List.mem_singleton.mpr rfl))
    · next hcond =>
      refine ⟨?_, ?_, ?_⟩
      · show (markRateLimited st sid AKind.report 5000 t).2.reports ++ _ = _
        rw [hmRep]
      · exact List.mem_singleton.mpr rfl
      · intro r hr hcnt
        rw [hmRep] at hcond
        exact absurd hcnt hcond
  | none =>
    dsimp only
    cases hpid : pl.reportedId with
    | some rid =>
      dsimp only
      split
      · next hcond =>
        refine ⟨?_, ?_, ?_⟩
        · show (markRateLimited st sid AKind.report 5000 t).2.reports ++ _ = _
          rw [hmRep]
        · exact List.mem_append.mpr (Or.inl (List.mem_singleton.mpr rfl))
        · intro r hr _
          have hpr : rid = r := Option.some.inj hr
          subst hpr
          constructor
          · show (if (markRateLimited st sid AKind.report 5000 t).2.banned.contains rid
                then (markRateLimited st sid AKind.report 5000 t).2.banned
                else (markRateLimited st sid AKind.report 5000 t).2.banned ++ [rid]).contains rid
                = true
            exact contains_bansert _ _
          · exact List.mem_append.mpr (Or.inr (List.mem_singleton.mpr rfl))
      · next hcond =>
        refine ⟨?_, ?_, ?_⟩
        · show (markRateLimited st sid AKind.report 5000 t).2.reports ++ _ = _
          rw [hmRep]
        · exact List.mem_singleton.mpr rfl
        · intro r hr hcnt
          rw [hmRep] at hcond
          exact absurd hcnt hcond
    | none =>
      dsimp only
      refine ⟨?_, ?_, ?_⟩
      · show (markRateLimited st sid AKind.report 5000 t).2.reports ++ _ = _
        rw [hmRep]
      · exact List.mem_singleton.mpr rfl
      · intro r hr _
        exact absurd hr (by simp)

/-- C7, witness: the third report against id 5 (from reporter 1 with no
partner, target supplied in the payload) on the concrete state
`stReports` appends the entry, acks the reporter, bans 5 and emits the
ban notice. -/
theorem C7_report_witness :
    (reportHandler stReports 1 (some ⟨some 5, none⟩) 100000).1.reports =
      stReports.reports ++
        [⟨1, reportedTarget stReports 1 ⟨some 5, none⟩, "unspecified", 100000⟩] ∧
    (1, OutMsg.reportAck "Thank you. We\x27ll review the report.")
      ∈ (reportHandler stReports 1 (some ⟨some 5, none⟩) 100000).2 ∧
    ((reportHandler stReports 1 (some ⟨some 5, none⟩) 100000).1.banned.contains 5 = true ∧
      (5, OutMsg.bannedMsg "Multiple reports")
        ∈ (reportHandler stReports 1 (some ⟨some 5, none⟩) 100000).2) :=
  ⟨(C7_report stReports 1 100000 ⟨some 5, none⟩ (by decide)).1,
   (C7_report stReports 1 100000 ⟨some 5, none⟩ (by decide)).2.1,
   (C7_report stReports 1 100000 ⟨some 5, none⟩ (by decide)).2.2 5 (by decide) (by decide)⟩

/-- C8: in a well-formed state (executable slot and symmetry checks,
no duplicate registry keys), a reaper tick at time `t` removes every
session whose `lastSeen` is older than `t - 45000` from the registry and
guarantees it does not hold the waiting slot afterwards; if such a
session had a partner that is itself not stale, the partner is sent
`partnerLeft` during the sweep and its link is cleared (a simultaneously
stale partner is instead removed by the same sweep, in which claim form
it is itself a stale session of this theorem). -/
theorem C8_reaper (st : ServerState) (t sid : Nat) (sess : Session)
    (hslot : slotOkB st = true) (hsymm : symmB st = true)
    (hnd : (st.activeUsers.map Prod.fst).Nodup)
    (hlk : alookup st.activeUsers sid = some sess)
    (hstale : sess.lastSeen < t - 45000) :
    alookup (reaperHandler st t).1.activeUsers sid = none ∧
    ¬ ((reaperHandler st t).1.waitingUser = some sid) ∧
    (∀ p psess, sess.partner = some p → alookup st.activeUsers p = some psess →
      ¬ (psess.lastSeen < t - 45000) →
      (p, OutMsg.partnerLeft) ∈ (reaperHandler st t).2 ∧
      partnerOf (reaperHandler st t).1 p = none) := by
  have hmem := mem_staleIds hlk hstale
  refine ⟨sweep_removes _ _ _ _ hmem, sweep_slot_ne _ _ _ _ hmem, ?_⟩
  intro p psess hpp hplk hpns
  have hpair : partnerOf st sid = some p := by
    unfold partnerOf
    rw [hlk]
    exact hpp
  exact sweep_notify (staleIds st t) st [] sid p ⟨slotOk_of_b hslot, symm_of_b hsymm⟩
    (staleIds_nodup hnd t) hmem (not_mem_staleIds hnd hplk hpns) hpair

/-- C8, witness: one reaper tick at t = 200000 on `stStale` (session 1
stale since 100000, partner 2 fresh) removes 1, leaves the slot off 1,
notifies 2 with `partnerLeft` and clears the link of 2. -/
theorem C8_reaper_witness :
    alookup (reaperHandler stStale 200000).1.activeUsers 1 = none ∧
    ¬ ((reaperHandler stStale 200000).1.waitingUser = some 1) ∧
    ((2, OutMsg.partnerLeft) ∈ (reaperHandler stStale 200000).2 ∧
      partnerOf (reaperHandler stStale 200000).1 2 = none) :=
  ⟨(C8_reaper stStale 200000 1 ⟨some 2, 100000⟩ (by decide) (by decide) (by decide)
      (by decide) (by decide)).1,
   (C8_reaper stStale 200000 1 ⟨some 2, 100000⟩ (by decide) (by decide) (by decide)
      (by decide) (by decide)).2.1,
   (C8_reaper stStale 200000 1 ⟨some 2, 100000⟩ (by decide) (by decide) (by decide)
      (by decide) (by decide)).2.2 2 ⟨some 1, 199000⟩ (by decide) (by decide) (by decide)⟩

/-- C9: each of the three relay handlers forwards the payload unchanged
to the sender's current partner when one exists at the moment of the
call (the state is untouched and exactly one message is emitted, to the
partner), and when no partner exists it is a complete no-op: state
unchanged, nothing emitted, nothing sent back to the sender. -/
theorem C9_relay (st : ServerState) (sid p payload : Nat) :
    (partnerOf st sid = some p →
      offerHandler st sid payload = (st, [(p, OutMsg.offerM payload)]) ∧
      answerHandler st sid payload = (st, [(p, OutMsg.answerM payload)]) ∧
      candidateHandler st sid payload = (st, [(p, OutMsg.candidateM payload)])) ∧
    (partnerOf st sid = none →
      offerHandler st sid payload = (st, []) ∧
      answerHandler st sid payload = (st, []) ∧
      candidateHandler st sid payload = (st, [])) := by
  constructor
  · intro h
    refine ⟨?_, ?_, ?_⟩ <;>
      simp only [offerHandler, answerHandler, candidateHandler, h]
  · intro h
    refine ⟨?_, ?_, ?_⟩ <;>
      simp only [offerHandler, answerHandler, candidateHandler, h]

/-- C9, witness: the relays on the paired state `stPaired` (1 forwards to
2) and on the solo state `stSolo` (3 has no partner, drop). -/
theorem C9_relay_witness :
    (offerHandler stPaired 1 7 = (stPaired, [(2, OutMsg.offerM 7)]) ∧
      answerHandler stPaired 1 7 = (stPaired, [(2, OutMsg.answerM 7)]) ∧
      candidateHandler stPaired 1 7 = (stPaired, [(2, OutMsg.candidateM 7)])) ∧
    (offerHandler stSolo 3 7 = (stSolo, []) ∧
      answerHandler stSolo 3 7 = (stSolo, []) ∧
      candidateHandler stSolo 3 7 = (stSolo, [])) :=
  ⟨(C9_relay stPaired 1 2 7).1 (by decide), (C9_relay stSolo 3 0 7).2 (by decide)⟩

/-- C10: a non-rate-limited `report` whose payload carries no
`reportedId`, from a reporter with no partner, appends an entry with an
undefined reported id, never changes the ban set (for any state, so no
number of such accumulated entries triggers a ban) and emits only the
acknowledgment; a `report` with a missing payload is dropped entirely —
identical state (no ledger append, no rate-limit mark) and no output. -/
theorem C10_report_edge (st : ServerState) (sid t : Nat) (pl : RPayload)
    (hpl : pl.reportedId = none) (hpr : partnerOf st sid = none)
    (hrl : (markRateLimited st sid AKind.report 5000 t).1 = false) :
    (reportHandler st sid (some pl) t).1.reports =
      st.reports ++ [⟨sid, none, pl.reason.getD "unspecified", t⟩] ∧
    (reportHandler st sid (some pl) t).1.banned = st.banned ∧
    (reportHandler st sid (some pl) t).2 =
      [(sid, OutMsg.reportAck "Thank you. We\x27ll review the report.")] ∧
    reportHandler st sid none t = (st, []) := by
  have hrcond : ¬ ((markRateLimited st sid AKind.report 5000 t).1 = true) := by
    rw [hrl]; simp
  simp only [reportHandler]
  rw [if_neg hrcond]
  rw [show partnerOf (markRateLimited st sid AKind.report 5000 t).2 sid = partnerOf st sid from
    mrl_partnerOf st sid AKind.report 5000 t sid]
  rw [hpr]
  dsimp only
  rw [hpl]
  dsimp only
  refine ⟨?_, ?_, ?_, ?_⟩
  · show (markRateLimited st sid AKind.report 5000 t).2.reports ++ _ = _
    rw [mrl_reports]
  · exact mrl_banned _ _ _ _ _
  · rfl
  · trivial

/-- C10, witness: the edge behavior on the concrete solo state (reporter
3, no partner, empty payload), plus the missing-payload drop. -/
theorem C10_report_edge_witness :
    (reportHandler stSolo 3 (some ⟨none, none⟩) 100000).1.reports =
      stSolo.reports ++ [⟨3, none, "unspecified", 100000⟩] ∧
    (reportHandler stSolo 3 (some ⟨none, none⟩) 100000).1.banned = stSolo.banned ∧
    (reportHandler stSolo 3 (some ⟨none, none⟩) 100000).2 =
      [(3, OutMsg.reportAck "Thank you. We\x27ll review the report.")] ∧
    reportHandler stSolo 3 none 100000 = (stSolo, []) :=
  C10_report_edge stSolo 3 100000 ⟨none, none⟩ (by decide) (by decide) (by decide)
